import Mathlib

/-!
# DXCC Analyzer Pro — verification of the Log Analysis Engine

Shallow embedding of the analyzer component (`src/unnamed/part_002`,
`DXCCAnalyzer`): the ADIF record parser (`parseADIF`), the classification
predicates (`isConfirmed`, `categorizeMode`), the aggregation engine
(`analyzeQSOs`) and the display-adaptive accessor (`getDisplayBandStatus`),
together with theorems settling the specification claims about them.

A parsed record (QSO) is a JavaScript object: field name to string value.
We model it as an association list where a later binding shadows an earlier
one (JS assignment `qso[FIELD] = value` overwrites).

String primitives (`toUpperCase`, `toLowerCase`, `trim`, `startsWith`,
`includes`, `substring`) are modelled on the character list underlying the
string, with the usual ASCII case conversion.
-/

/-- ASCII upper-casing of one character (JS `toUpperCase` on the ASCII range). -/
def upChar (c : Char) : Char :=
  if 'a' ≤ c ∧ c ≤ 'z' then Char.ofNat (c.toNat - 32) else c

/-- ASCII lower-casing of one character (JS `toLowerCase` on the ASCII range). -/
def lowChar (c : Char) : Char :=
  if 'A' ≤ c ∧ c ≤ 'Z' then Char.ofNat (c.toNat + 32) else c

/-- JS `s.toUpperCase()`. -/
def upStr (s : String) : String := String.mk (s.data.map upChar)

/-- JS `s.toLowerCase()`. -/
def lowStr (s : String) : String := String.mk (s.data.map lowChar)

/-- JS `s.trim()`: strip leading and trailing whitespace. -/
def trimList (l : List Char) : List Char :=
  ((l.dropWhile Char.isWhitespace).reverse.dropWhile Char.isWhitespace).reverse

/-- JS `s.trim()` on strings. -/
def trimStr (s : String) : String := String.mk (trimList s.data)

/-- JS `s.substring(0, n)`. -/
def takeStr (s : String) (n : Nat) : String := String.mk (s.data.take n)

/-- Length of a string in characters (JS `s.length` for BMP text). -/
def strLen (s : String) : Nat := s.data.length

/-- JS `s.startsWith(p)`. -/
def startsWithStr (s p : String) : Bool := p.data.isPrefixOf s.data

/-- Membership of `sub` as a contiguous run inside `l`. -/
def infixOf (sub : List Char) : List Char → Bool
  | [] => sub.isEmpty
  | c :: rest => sub.isPrefixOf (c :: rest) || infixOf sub rest

/-- JS `s.includes(sub)`: substring containment. -/
def strIncludes (s sub : String) : Bool := infixOf sub.data s.data

/-- A parsed contact record: association list of (field name, value),
later bindings shadow earlier ones. -/
abbrev QSO := List (String × String)

/-- JS property read `qso[name]`: the value of the latest assignment to
`name`, or `none` (undefined) when the field is absent. -/
def getField (q : QSO) (name : String) : Option String :=
  match q with
  | [] => Option.none
  | (n, v) :: rest =>
    match getField rest name with
    | some w => some w
    | Option.none => if n = name then some v else Option.none

/-- JS string truthiness for an optional field: `undefined` and the empty
string are falsy. -/
def strTruthy : Option String → Bool
  | Option.none => false
  | some s => s ≠ ""

/-- JS `a || b` on an optional string `a` with string fallback `b`. -/
def jsOr (a : Option String) (b : String) : String :=
  match a with
  | some s => if s = "" then b else s
  | Option.none => b

/-- `['Y', 'V'].includes(x?.toUpperCase())` from the source. -/
def isYV : Option String → Bool
  | Option.none => false
  | some s => upStr s = "Y" || upStr s = "V"

/-- The six confirmation fields consulted by `isConfirmed`
(`QRZCOM_QSO_UPLOAD_STATUS` is intentionally excluded in the source). -/
def confirmFields : List String :=
  ["LOTW_QSL_RCVD", "EQSL_QSL_RCVD", "QSL_RCVD",
   "QRZCOM_QSL_RCVD", "QRZ_QSL_RCVD", "QRZCOM_QSO_DOWNLOAD_STATUS"]

/-- `isConfirmed` from the source: some confirmation field holds `Y`/`V`
(case-insensitive). -/
def isConfirmed (q : QSO) : Bool :=
  confirmFields.any (fun f => isYV (getField q f))

/-- The recognized bands (`BANDS` constant in the source). -/
def BANDS : List String :=
  ["160m", "80m", "40m", "30m", "20m", "17m", "15m", "12m", "10m", "6m"]

/-- `MODE_CATEGORIES.ssb` from the source. -/
def MODE_SSB : List String := ["SSB", "USB", "LSB", "AM"]

/-- `MODE_CATEGORIES.digital` from the source. -/
def MODE_DIGITAL : List String :=
  ["FT8", "FT4", "JT65", "JT9", "JT4", "WSPR", "Q65",
   "RTTY", "PSK", "PSK31", "PSK63", "PSK125", "QPSK", "BPSK",
   "MFSK", "OLIVIA", "CONTESTIA", "HELL", "MT63", "DOMINO", "THROB",
   "VARA", "WINMOR", "ARDOP", "PACTOR",
   "PACKET", "APRS", "AX25",
   "FSK", "AFSK"]

/-- `categorizeMode` from the source: digital vocabulary first (substring
match), then CW, then SSB; otherwise `unknown`. -/
def categorizeMode (mode : Option String) : String :=
  match mode with
  | Option.none => "unknown"
  | some m =>
    if m = "" then "unknown"
    else
      let u := trimStr (upStr m)
      if MODE_DIGITAL.any (fun d => u = d || startsWithStr u (d ++ " ") || strIncludes u d) then
        "digital"
      else if u = "CW" || startsWithStr u "CW " then "cw"
      else if MODE_SSB.any (fun s => u = s || startsWithStr u (s ++ " ")) then "ssb"
      else "unknown"

example : isConfirmed [("LOTW_QSL_RCVD", "y")] = true := by decide
example : isConfirmed [("QRZCOM_QSO_UPLOAD_STATUS", "Y")] = false := by decide
example : categorizeMode (some "FT8") = "digital" := by decide
example : categorizeMode (some "CW") = "cw" := by decide
example : categorizeMode (some "FM") = "unknown" := by decide

/-!
## RecordParser: `parseADIF`

The source splits the input on a case-insensitive `<eor>` marker, then runs
the regex `/<(\w+):(\d+)(?::(\w))?>([^<]*)/gi` over each chunk.  We model
the regex scan directly: at each position the engine attempts to match the
tag pattern; on success it emits the captures and resumes after the match,
on failure it advances one character.
-/

/-- JS regex `\w` (ASCII word character). -/
def isWordChar (c : Char) : Bool := c.isAlphanum || c == '_'

/-- Numeric value of an ASCII digit run (JS `parseInt(match[2], 10)`). -/
def digitsToNat (l : List Char) : Nat :=
  l.foldl (fun n c => n * 10 + (c.toNat - '0'.toNat)) 0

/-- One successful match of the tag regex: captured NAME, LENGTH, raw VALUE
(`[^<]*`), and the characters following the match. -/
structure TagMatch where
  name : String
  len : Nat
  raw : String
  rest : List Char

/-- Attempt to match `<(\w+):(\d+)(?::(\w))?>([^<]*)` at the head of `l`. -/
def tryTag (l : List Char) : Option TagMatch :=
  match l with
  | '<' :: r0 =>
    let name := r0.takeWhile isWordChar
    match r0.dropWhile isWordChar with
    | ':' :: r2 =>
      let digits := r2.takeWhile Char.isDigit
      if name.isEmpty || digits.isEmpty then Option.none
      else
        match r2.dropWhile Char.isDigit with
        | '>' :: r4 =>
          some ⟨String.mk name, digitsToNat digits,
                String.mk (r4.takeWhile (fun c => c ≠ '<')),
                r4.dropWhile (fun c => c ≠ '<')⟩
        | ':' :: c :: '>' :: r4 =>
          if isWordChar c then
            some ⟨String.mk name, digitsToNat digits,
                  String.mk (r4.takeWhile (fun c => c ≠ '<')),
                  r4.dropWhile (fun c => c ≠ '<')⟩
          else Option.none
        | _ => Option.none
    | _ => Option.none
  | _ => Option.none

/-- The repeated-`exec` scan of the tag regex over a chunk, with explicit
fuel.  Each step consumes at least one character, so `l.length` units of
fuel always complete the scan. -/
def scanTags : Nat → List Char → List (String × Nat × String)
  | 0, _ => []
  | _ + 1, [] => []
  | fuel + 1, c :: rest =>
    match tryTag (c :: rest) with
    | some t => (t.name, t.len, t.raw) :: scanTags fuel t.rest
    | Option.none => scanTags fuel rest

/-- All tag matches of a chunk, in order. -/
def extractTags (l : List Char) : List (String × Nat × String) :=
  scanTags l.length l

/-- Field-value computation from the source: truncate the raw capture to
the declared length when that length is positive and exceeded, then trim. -/
def mkFieldValue (len : Nat) (raw : String) : String :=
  if 0 < len ∧ len < strLen raw then trimStr (takeStr raw len) else trimStr raw

/-- Build one record from a chunk: upper-case each captured tag name and
store its processed value (later tags overwrite earlier ones). -/
def buildQSO (chunk : String) : QSO :=
  (extractTags chunk.data).map (fun t => (upStr t.1, mkFieldValue t.2.1 t.2.2))

/-- Case-insensitive `<eor>` at the head of the character list. -/
def isEOR : List Char → Bool
  | a :: b :: c :: d :: e :: _ =>
    a == '<' && (b == 'e' || b == 'E') && (c == 'o' || c == 'O') &&
    (d == 'r' || d == 'R') && e == '>'
  | _ => false

/-- `content.split(/<eor>/i)`: accumulate characters until an end-of-record
marker, emitting one chunk per marker plus the trailing remainder. -/
def splitEORAux : List Char → List Char → List String
  | a :: b :: c :: d :: e :: tail, acc =>
    if isEOR (a :: b :: c :: d :: e :: tail) then
      String.mk acc.reverse :: splitEORAux tail []
    else splitEORAux (b :: c :: d :: e :: tail) (a :: acc)
  | a :: rest, acc => splitEORAux rest (a :: acc)
  | [], acc => [String.mk acc.reverse]

/-- Split the raw content into record chunks on case-insensitive `<eor>`. -/
def splitEOR (content : String) : List String := splitEORAux content.data []

/-- `parseADIF` from the source: drop blank chunks, build a record from each
remaining chunk, and keep only records with at least one field. -/
def parseADIF (content : String) : List QSO :=
  (splitEOR content).foldl
    (fun acc rec =>
      if trimStr rec = "" then acc
      else
        let qso := buildQSO rec
        if qso.length > 0 then acc ++ [qso] else acc)
    []

example : parseADIF "<MODE:3>FT8<BAND:3>20m<DXCC:3>291<eor>" =
    [[("MODE", "FT8"), ("BAND", "20m"), ("DXCC", "291")]] := by decide
example : parseADIF "<X:0>abcd<eor>" = [[("X", "abcd")]] := by decide
example : parseADIF "header junk<eor>" = [] := by decide
example : parseADIF "<CALL:6>  AB1CD<EOR>" = [[("CALL", "AB1C")]] := by decide
example : parseADIF "<CALL:7>  AB1CD<EOR>" = [[("CALL", "AB1CD")]] := by decide
example : parseADIF "<MODE:2>FT8x<eor>" = [[("MODE", "FT")]] := by decide

/-!
## AggregationEngine: `analyzeQSOs`

The source folds the (mode/operator pre-filtered) records into `dxccData`,
an object keyed by the DXCC identifier.  We model it as an association list
built in insertion order.  Each entry's band-indexed objects are modelled as
total functions from band/platform, initialized to the values the source
writes for every recognized band (`null` status, zero counts, false flags);
the fold only ever touches recognized bands, as in the source.

The DXCC lookup table (`src/utils/dxccEntities.js`, imported by the
component as `lookupDXCC`) is not part of the analyzed sources, so the
engine is parameterized by the lookup function; the spec's lookup contract
gives its shape (name, continent, retired/deleted flag, or absent).
-/

/-- Result of a lookup-table hit, per the spec's lookup contract. -/
structure DXCCInfo where
  name : String
  cont : String
  deleted : Bool

/-- Per-band status: `null` / `'W'` / `'C'` in the source. -/
inductive BandStatus
  | N
  | W
  | C
deriving DecidableEq

/-- The confirmation platforms tracked per entity and per band. -/
inductive Platform
  | lotw
  | eqsl
  | qrz
  | qsl
deriving DecidableEq

/-- One `dxccData[dxccId]` aggregate from the source. -/
structure DXCCEntry where
  country : String
  cont : String
  deleted : Bool
  total : Nat
  lotw : Bool
  eqsl : Bool
  qrz : Bool
  qsl : Bool
  bands : String → BandStatus
  bandQsos : String → Nat
  bandConfirmations : String → Platform → Bool
  platformQsos : Platform → Nat
  bandPlatformQsos : String → Platform → Nat

/-- The aggregate map, in insertion order. -/
abbrev DXCCData := List (String × DXCCEntry)

/-- `dxccData[dxccId]` read (object keys are unique by construction, so
first match suffices). -/
def lookupEntry : DXCCData → String → Option DXCCEntry
  | [], _ => Option.none
  | (k, e) :: rest, id => if k = id then some e else lookupEntry rest id

/-- In-place mutation of the entry stored under `id`. -/
def updateEntry (d : DXCCData) (id : String) (f : DXCCEntry → DXCCEntry) : DXCCData :=
  match d with
  | [] => []
  | (k, e) :: rest =>
    if k = id then (k, f e) :: rest else (k, e) :: updateEntry rest id f

/-- The freshly initialized aggregate from the source (`total: 0`, all
platform flags false, every band `null` with zero counts). -/
def initEntry (country cont : String) (deleted : Bool) : DXCCEntry where
  country := country
  cont := cont
  deleted := deleted
  total := 0
  lotw := false
  eqsl := false
  qrz := false
  qsl := false
  bands := fun _ => BandStatus.N
  bandQsos := fun _ => 0
  bandConfirmations := fun _ _ => false
  platformQsos := fun _ => 0
  bandPlatformQsos := fun _ _ => 0

/-- `const dxccId = qso.DXCC; if (!dxccId) return` — the grouping key,
absent when the field is missing or empty. -/
def qsoKey (q : QSO) : Option String :=
  match getField q "DXCC" with
  | some s => if s = "" then Option.none else some s
  | Option.none => Option.none

/-- The per-record LOTW flag (`isLotw` in the source). -/
def isLotw (q : QSO) : Bool := isYV (getField q "LOTW_QSL_RCVD")

/-- The per-record eQSL flag (`isEqsl` in the source). -/
def isEqsl (q : QSO) : Bool := isYV (getField q "EQSL_QSL_RCVD")

/-- The per-record paper-QSL flag (`isQsl` in the source). -/
def isQsl (q : QSO) : Bool := isYV (getField q "QSL_RCVD")

/-- The per-record QRZ flag (`isQrz` in the source): any of the three QRZ
fields holds `Y`/`V`. -/
def isQrz (q : QSO) : Bool :=
  ["QRZCOM_QSL_RCVD", "QRZ_QSL_RCVD", "QRZCOM_QSO_DOWNLOAD_STATUS"].any
    (fun f => isYV (getField q f))

/-- The record's platform flag for a given platform. -/
def platformFlag (q : QSO) : Platform → Bool
  | Platform.lotw => isLotw q
  | Platform.eqsl => isEqsl q
  | Platform.qrz => isQrz q
  | Platform.qsl => isQsl q

/-- The normalized band of a record when it is recognized:
`band && BANDS.includes(band.toLowerCase())` in the source. -/
def bandKey (q : QSO) : Option String :=
  match getField q "BAND" with
  | some b =>
    if b = "" then Option.none
    else if BANDS.contains (lowStr b) then some (lowStr b) else Option.none
  | Option.none => Option.none

/-- The per-record mutation of an existing aggregate (the body of the fold
after entry initialization): bump `total`, accumulate platform flags and
counts, and update the band bucket when the band is recognized. -/
def applyQso (e : DXCCEntry) (q : QSO) : DXCCEntry :=
  let confirmed := isConfirmed q
  let e1 : DXCCEntry :=
    { e with
      total := e.total + 1
      lotw := e.lotw || isLotw q
      eqsl := e.eqsl || isEqsl q
      qrz := e.qrz || isQrz q
      qsl := e.qsl || isQsl q
      platformQsos := fun p =>
        e.platformQsos p + (if platformFlag q p then 1 else 0) }
  match bandKey q with
  | Option.none => e1
  | some nb =>
    { e1 with
      bands := Function.update e1.bands nb
        (if confirmed then BandStatus.C
         else if e1.bands nb = BandStatus.N then BandStatus.W
         else e1.bands nb)
      bandQsos := Function.update e1.bandQsos nb (e1.bandQsos nb + 1)
      bandConfirmations := fun b p =>
        if b = nb then e1.bandConfirmations b p || platformFlag q p
        else e1.bandConfirmations b p
      bandPlatformQsos := fun b p =>
        if b = nb then e1.bandPlatformQsos b p + (if platformFlag q p then 1 else 0)
        else e1.bandPlatformQsos b p }

/-- Country resolution from the source:
`qso.COUNTRY || dxccLookup?.name || 'Unknown'`. -/
def resolveCountry (lk : String → Option DXCCInfo) (q : QSO) (id : String) : String :=
  jsOr (getField q "COUNTRY") (jsOr ((lk id).map (fun i => i.name)) "Unknown")

/-- Continent resolution from the source:
`qso.CONT || dxccLookup?.cont || ''`. -/
def resolveCont (lk : String → Option DXCCInfo) (q : QSO) (id : String) : String :=
  jsOr (getField q "CONT") (jsOr ((lk id).map (fun i => i.cont)) "")

/-- Deleted-flag resolution from the source: `dxccLookup?.deleted || false`. -/
def resolveDeleted (lk : String → Option DXCCInfo) (id : String) : Bool :=
  ((lk id).map (fun i => i.deleted)).getD false

/-- One iteration of the `filteredQsos.forEach` fold in `analyzeQSOs`:
drop the record when the grouping key is falsy, otherwise initialize the
aggregate on first sight and apply the per-record mutations. -/
def analyzeStep (lk : String → Option DXCCInfo) (d : DXCCData) (q : QSO) : DXCCData :=
  match qsoKey q with
  | Option.none => d
  | some dxccId =>
    let d1 :=
      if (lookupEntry d dxccId).isSome then d
      else d ++ [(dxccId,
        initEntry (resolveCountry lk q dxccId) (resolveCont lk q dxccId)
          (resolveDeleted lk dxccId))]
    updateEntry d1 dxccId (fun e => applyQso e q)

/-- The resolved operator callsign:
`(qso.STATION_CALLSIGN || qso.OPERATOR || '').toUpperCase()`. -/
def resolvedCall (q : QSO) : String :=
  upStr (jsOr (getField q "STATION_CALLSIGN") (jsOr (getField q "OPERATOR") ""))

/-- The pre-aggregation filter of `analyzeQSOs`: mode-category match, then
operator-callsign equality, each skipped on `'all'`. -/
def preFilter (modeFilter operatorFilter : String) (qsos : List QSO) : List QSO :=
  let l1 :=
    if modeFilter = "all" then qsos
    else qsos.filter (fun q => categorizeMode (getField q "MODE") = modeFilter)
  if operatorFilter = "all" then l1
  else l1.filter (fun q => resolvedCall q = operatorFilter)

/-- `analyzeQSOs` from the source: pre-filter, then fold into the aggregate
map. -/
def analyzeQSOs (lk : String → Option DXCCInfo) (qsos : List QSO)
    (modeFilter operatorFilter : String) : DXCCData :=
  (preFilter modeFilter operatorFilter qsos).foldl (analyzeStep lk) []

/-- `getDisplayBandStatus` from the source, for an active platform filter
`some p` or no platform filter `none`. -/
def getDisplayBandStatus (filterConfirmation : Option Platform)
    (e : DXCCEntry) (band : String) : BandStatus :=
  let status := e.bands band
  if status = BandStatus.N then BandStatus.N
  else
    match filterConfirmation with
    | some p =>
      if e.bandConfirmations band p then BandStatus.C
      else if e.bandQsos band > 0 then BandStatus.W
      else BandStatus.N
    | Option.none => status

/-- The status an aggregate map assigns to an entity and band (`null` when
the entity has no aggregate). -/
def statusOf (d : DXCCData) (id b : String) : BandStatus :=
  match lookupEntry d id with
  | some e => e.bands b
  | Option.none => BandStatus.N

/-- Sum of the `total` field over all aggregates. -/
def totalSum (d : DXCCData) : Nat := (d.map (fun p => p.2.total)).sum

/-- `true` when the record belongs to entity `id` and lands on recognized
band `b`. -/
def relevantTo (id b : String) (q : QSO) : Bool :=
  qsoKey q == some id && bandKey q == some b

example :
    statusOf (analyzeQSOs (fun _ => Option.none)
      [[("DXCC", "291"), ("BAND", "20M"), ("LOTW_QSL_RCVD", "Y")]] "all" "all")
      "291" "20m" = BandStatus.C := by decide
example :
    statusOf (analyzeQSOs (fun _ => Option.none)
      [[("DXCC", "291"), ("BAND", "20m")]] "all" "all") "291" "20m"
      = BandStatus.W := by decide
example :
    totalSum (analyzeQSOs (fun _ => Option.none)
      [[("DXCC", "291"), ("BAND", "99m")], [("DXCC", "291")], [("BAND", "20m")]]
      "all" "all") = 2 := by decide

/-- The per-band consistency facts maintained by the fold for every stored
aggregate: a band's status is `null` exactly when its contact count is
zero, and a per-band platform confirmation implies a non-`null` status. -/
def EntryInv (e : DXCCEntry) : Prop :=
  ∀ b : String,
    (e.bands b = BandStatus.N ↔ e.bandQsos b = 0) ∧
    (∀ p : Platform, e.bandConfirmations b p = true →
      ¬e.bands b = BandStatus.N)

/-- The single aggregate produced by the C7 witness log. -/
def c7entry : DXCCEntry :=
  ((analyzeQSOs (fun _ => Option.none)
      [[("DXCC", "291"), ("BAND", "20m"), ("LOTW_QSL_RCVD", "Y")]]
      "all" "all").headD ("", initEntry "" "" false)).2

/-- Modelled from the spec: the DXCC lookup table module
(`src/utils/dxccEntities.js`, imported by the component as `lookupDXCC`) is
not among the analyzed sources; per the spec's lookup contract it maps an
entity identifier to name, continent and retired/deleted flag.  This is a
small sample instance used for concrete evaluations. -/
def sampleLookup : String → Option DXCCInfo := fun id =>
  if id = "230" then some ⟨"Federal Republic of Germany", "EU", false⟩
  else if id = "291" then some ⟨"United States of America", "NA", false⟩
  else if id = "229" then some ⟨"German Democratic Republic", "EU", true⟩
  else Option.none

/-- One row of the DXCC lookup table, as enumerated by the spec's lookup
contract (`allActive` exposes identifier, name, continent; `retired`
entities carry the deleted flag). -/
structure LookupRow where
  id : String
  name : String
  cont : String
  deleted : Bool

/-- Modelled from the spec: the "Not Worked" status mode of the filter
pipeline and the MissingEntityResolver are documented features whose code
is not among the analyzed sources (the component implements only the
`all`/`confirmed`/`worked` status modes).  Per the spec: without a band
filter the mode yields the non-retired lookup-table entities absent from
the aggregate set; with a band filter it additionally yields the
aggregated entities whose status on that band is None. -/
def notWorkedEntities (table : List LookupRow) (d : DXCCData)
    (bandFilter : Option String) : List String :=
  let missing := (table.filter
    (fun r => !r.deleted && (lookupEntry d r.id).isNone)).map LookupRow.id
  match bandFilter with
  | Option.none => missing
  | some b =>
    missing ++ (d.filter (fun p => decide (p.2.bands b = BandStatus.N))).map Prod.fst

/-!
## Band-status machinery

The per-record effect of the fold on one (entity, band) slot is the
transition `null → W`, `anything → C` on a verified contact, `W/C`
untouched otherwise.  We characterize the fold through that transition.
-/

/-- The band-status transition of a single record from the source:
`if (confirmed) 'C'; else if (!currentStatus) 'W'`. -/
def bandTransition (s : BandStatus) (q : QSO) : BandStatus :=
  if isConfirmed q then BandStatus.C
  else if s = BandStatus.N then BandStatus.W
  else s

theorem lookupEntry_append (d1 d2 : DXCCData) (id : String) :
    lookupEntry (d1 ++ d2) id =
      match lookupEntry d1 id with
      | some e => some e
      | Option.none => lookupEntry d2 id := by
  induction d1 with
  | nil => simp [lookupEntry]
  | cons p rest ih =>
    obtain ⟨k, e⟩ := p
    by_cases h : k = id <;> simp [lookupEntry, h, ih]

theorem lookupEntry_updateEntry (d : DXCCData) (id id' : String)
    (f : DXCCEntry → DXCCEntry) :
    lookupEntry (updateEntry d id f) id' =
      if id' = id then (lookupEntry d id).map f else lookupEntry d id' := by
  induction d with
  | nil => simp [lookupEntry, updateEntry]
  | cons p rest ih =>
    obtain ⟨k, e⟩ := p
    by_cases hk : k = id
    · subst hk
      by_cases h' : id' = k
      · subst h'; simp [lookupEntry, updateEntry]
      · have hk' : ¬k = id' := fun h => h' h.symm
        simp [lookupEntry, updateEntry, h', hk']
    · by_cases h2 : k = id'
      · subst h2
        simp [lookupEntry, updateEntry, hk]
      · simp [lookupEntry, updateEntry, hk, h2, ih]

theorem applyQso_total (e : DXCCEntry) (q : QSO) :
    (applyQso e q).total = e.total + 1 := by
  unfold applyQso
  cases bandKey q <;> rfl

theorem applyQso_country (e : DXCCEntry) (q : QSO) :
    (applyQso e q).country = e.country := by
  unfold applyQso
  cases bandKey q <;> rfl

theorem applyQso_cont (e : DXCCEntry) (q : QSO) :
    (applyQso e q).cont = e.cont := by
  unfold applyQso
  cases bandKey q <;> rfl

theorem applyQso_deleted (e : DXCCEntry) (q : QSO) :
    (applyQso e q).deleted = e.deleted := by
  unfold applyQso
  cases bandKey q <;> rfl

theorem applyQso_bands (e : DXCCEntry) (q : QSO) (b : String) :
    (applyQso e q).bands b =
      if bandKey q = some b then bandTransition (e.bands b) q else e.bands b := by
  unfold applyQso bandTransition
  cases hbk : bandKey q with
  | none => simp
  | some nb =>
    by_cases hb : nb = b
    · subst hb; simp [Function.update_apply]
    · have hb' : ¬b = nb := fun h => hb h.symm
      simp [Function.update_apply, hb, hb']

theorem applyQso_bandQsos (e : DXCCEntry) (q : QSO) (b : String) :
    (applyQso e q).bandQsos b =
      e.bandQsos b + (if bandKey q = some b then 1 else 0) := by
  unfold applyQso
  cases hbk : bandKey q with
  | none => simp
  | some nb =>
    by_cases hb : nb = b
    · subst hb; simp [Function.update_apply]
    · have hb' : ¬b = nb := fun h => hb h.symm
      simp [Function.update_apply, hb, hb']

theorem applyQso_bandConfirmations (e : DXCCEntry) (q : QSO) (b : String)
    (p : Platform) :
    (applyQso e q).bandConfirmations b p =
      (e.bandConfirmations b p ||
        (decide (bandKey q = some b) && platformFlag q p)) := by
  unfold applyQso
  cases hbk : bandKey q with
  | none => simp
  | some nb =>
    by_cases hb : b = nb
    · subst hb; simp
    · have hb' : ¬nb = b := fun h => hb h.symm
      simp [hb, hb']

theorem statusOf_analyzeStep (lk : String → Option DXCCInfo) (d : DXCCData)
    (q : QSO) (id b : String) :
    statusOf (analyzeStep lk d q) id b =
      if relevantTo id b q then bandTransition (statusOf d id b) q
      else statusOf d id b := by
  unfold analyzeStep relevantTo
  cases hk : qsoKey q with
  | none => simp [statusOf]
  | some id' =>
    by_cases hid : id' = id
    · subst hid
      cases hex : lookupEntry d id' with
      | some e =>
        simp only [hex, Option.isSome_some, if_true, statusOf,
          lookupEntry_updateEntry, if_pos rfl, Option.map_some']
        rw [applyQso_bands]
        by_cases hbb : bandKey q = some b
        · simp [hbb]
        · simp [hbb, bandTransition]
      | none =>
        by_cases hbb : bandKey q = some b <;>
          simp [hex, statusOf, lookupEntry_updateEntry, lookupEntry_append,
            lookupEntry, applyQso_bands, initEntry, bandTransition, hbb]
    · have hne : ¬id = id' := fun h => hid h.symm
      have hbeq : (some id' == some id) = false := by
        simp [hid]
      simp only [hk, hbeq, Bool.false_and, if_false, statusOf]
      by_cases hex : (lookupEntry d id').isSome
      · simp [hex, lookupEntry_updateEntry, hne]
      · simp only [hex, Bool.false_eq_true, if_false, lookupEntry_updateEntry,
          hne, if_false, lookupEntry_append]
        cases hl : lookupEntry d id with
        | some e => simp
        | none => simp [lookupEntry, hid]

theorem statusOf_foldl (lk : String → Option DXCCInfo) (l : List QSO)
    (d : DXCCData) (id b : String) :
    statusOf (l.foldl (analyzeStep lk) d) id b =
      (l.filter (relevantTo id b)).foldl bandTransition (statusOf d id b) := by
  induction l generalizing d with
  | nil => rfl
  | cons q t ih =>
    rw [List.foldl_cons, ih, List.filter_cons]
    by_cases hrel : relevantTo id b q
    · simp [hrel, statusOf_analyzeStep]
    · simp [hrel, statusOf_analyzeStep]

theorem foldl_bandTransition (l : List QSO) (s : BandStatus) :
    l.foldl bandTransition s =
      if l.any isConfirmed then BandStatus.C
      else if l.isEmpty then s
      else if s = BandStatus.N then BandStatus.W else s := by
  induction l generalizing s with
  | nil => simp
  | cons q t ih =>
    rw [List.foldl_cons, ih]
    cases hc : isConfirmed q
    · cases s <;> simp [bandTransition, hc]
    · simp [bandTransition, hc]

/-- The verdict of the fold on one (entity, band) slot, as a function of
the pre-filtered record list alone. -/
theorem statusOf_analyzeQSOs (lk : String → Option DXCCInfo) (qsos : List QSO)
    (mf opf : String) (id b : String) :
    statusOf (analyzeQSOs lk qsos mf opf) id b =
      (if ((preFilter mf opf qsos).filter (relevantTo id b)).any isConfirmed
        then BandStatus.C
       else if ((preFilter mf opf qsos).filter (relevantTo id b)).isEmpty
        then BandStatus.N
       else BandStatus.W) := by
  unfold analyzeQSOs
  rw [statusOf_foldl, foldl_bandTransition]
  simp [statusOf, lookupEntry]

theorem filter_any_iff (l : List QSO) (r p : QSO → Bool) :
    (l.filter r).any p = true ↔ ∃ q ∈ l, r q = true ∧ p q = true := by
  rw [List.any_eq_true]
  constructor
  · rintro ⟨q, hq, hp⟩
    rw [List.mem_filter] at hq
    exact ⟨q, hq.1, hq.2, hp⟩
  · rintro ⟨q, hq, hr, hp⟩
    exact ⟨q, List.mem_filter.mpr ⟨hq, hr⟩, hp⟩

theorem filter_isEmpty_iff (l : List QSO) (r : QSO → Bool) :
    (l.filter r).isEmpty = true ↔ ¬∃ q ∈ l, r q = true := by
  rw [List.isEmpty_iff, List.eq_nil_iff_forall_not_mem]
  constructor
  · rintro h ⟨q, hq, hr⟩
    exact h q (List.mem_filter.mpr ⟨hq, hr⟩)
  · intro h q hq
    rw [List.mem_filter] at hq
    exact h ⟨q, hq.1, hq.2⟩

/-- **C1.** After `analyzeQSOs` folds any record sequence, for every entity
and recognized band the band status is `'C'` iff some folded contact of
that entity on that band satisfies `isConfirmed`; `'W'` iff a contact
exists on that band and none is confirmed; `null` iff no contact exists on
that band; and one fold step never changes a status that is already `'C'`. -/
theorem C1_band_status_characterization (lk : String → Option DXCCInfo)
    (qsos : List QSO) (mf opf id b : String) (hb : b ∈ BANDS) :
    (statusOf (analyzeQSOs lk qsos mf opf) id b = BandStatus.C ↔
      ∃ q ∈ preFilter mf opf qsos,
        relevantTo id b q = true ∧ isConfirmed q = true) ∧
    (statusOf (analyzeQSOs lk qsos mf opf) id b = BandStatus.W ↔
      ((∃ q ∈ preFilter mf opf qsos, relevantTo id b q = true) ∧
       ¬∃ q ∈ preFilter mf opf qsos,
          relevantTo id b q = true ∧ isConfirmed q = true)) ∧
    (statusOf (analyzeQSOs lk qsos mf opf) id b = BandStatus.N ↔
      ¬∃ q ∈ preFilter mf opf qsos, relevantTo id b q = true) ∧
    (∀ (d : DXCCData) (q : QSO), statusOf d id b = BandStatus.C →
      statusOf (analyzeStep lk d q) id b = BandStatus.C) := by
  have hchar := statusOf_analyzeQSOs lk qsos mf opf id b
  have hAny := filter_any_iff (preFilter mf opf qsos) (relevantTo id b) isConfirmed
  have hEmp := filter_isEmpty_iff (preFilter mf opf qsos) (relevantTo id b)
  have hExists : (∃ q ∈ preFilter mf opf qsos, relevantTo id b q = true) ↔
      ¬((preFilter mf opf qsos).filter (relevantTo id b)).isEmpty = true := by
    rw [hEmp]; exact not_not.symm
  refine ⟨?_, ?_, ?_, ?_⟩
  · rw [hchar, ← hAny]
    by_cases hA : ((preFilter mf opf qsos).filter (relevantTo id b)).any isConfirmed = true <;>
      by_cases hE : ((preFilter mf opf qsos).filter (relevantTo id b)).isEmpty = true <;>
      simp [hA, hE]
  · rw [hchar, ← hAny, hExists]
    by_cases hA : ((preFilter mf opf qsos).filter (relevantTo id b)).any isConfirmed = true <;>
      by_cases hE : ((preFilter mf opf qsos).filter (relevantTo id b)).isEmpty = true <;>
      simp [hA, hE]
  · rw [hchar, hEmp.symm]
    by_cases hA : ((preFilter mf opf qsos).filter (relevantTo id b)).any isConfirmed = true <;>
      by_cases hE : ((preFilter mf opf qsos).filter (relevantTo id b)).isEmpty = true <;>
      simp [hA, hE]
    · rw [List.isEmpty_iff] at hE
      rw [hE] at hA
      simp at hA
  · intro d q hC
    rw [statusOf_analyzeStep]
    by_cases hrel : relevantTo id b q = true <;>
      cases hc : isConfirmed q <;> simp [hrel, hC, bandTransition, hc]

/-- Witness for C1 at a concrete log: one confirmed 20m record for entity
291 yields status `'C'`, via the characterization. -/
theorem C1_band_status_characterization_witness :
    "20m" ∈ BANDS ∧
    statusOf (analyzeQSOs (fun _ => Option.none)
        [[("DXCC", "291"), ("BAND", "20m"), ("LOTW_QSL_RCVD", "Y")]]
        "all" "all") "291" "20m" = BandStatus.C :=
  ⟨by decide, by
    have h := (C1_band_status_characterization (fun _ => Option.none)
      [[("DXCC", "291"), ("BAND", "20m"), ("LOTW_QSL_RCVD", "Y")]]
      "all" "all" "291" "20m" (by decide)).1
    exact h.mpr ⟨[("DXCC", "291"), ("BAND", "20m"), ("LOTW_QSL_RCVD", "Y")],
      by decide, by decide, by decide⟩⟩

theorem perm_any_eq {l l' : List QSO} (h : l.Perm l') (p : QSO → Bool) :
    l.any p = l'.any p := by
  cases ha : l.any p <;> cases hb : l'.any p
  · rfl
  · rw [List.any_eq_true] at hb
    obtain ⟨q, hq, hp⟩ := hb
    have : l.any p = true := List.any_eq_true.mpr ⟨q, h.mem_iff.mpr hq, hp⟩
    rw [ha] at this; exact absurd this (by simp)
  · rw [List.any_eq_true] at ha
    obtain ⟨q, hq, hp⟩ := ha
    have : l'.any p = true := List.any_eq_true.mpr ⟨q, h.mem_iff.mp hq, hp⟩
    rw [hb] at this; exact absurd this (by simp)
  · rfl

theorem perm_isEmpty_eq {l l' : List QSO} (h : l.Perm l') :
    l.isEmpty = l'.isEmpty := by
  cases l with
  | nil => rw [List.nil_perm] at h; rw [h]
  | cons q t =>
    cases l' with
    | nil => exact absurd h.symm (by rw [List.nil_perm]; simp)
    | cons q' t' => rfl

theorem preFilter_perm {qsos qsos' : List QSO} (mf opf : String)
    (h : qsos.Perm qsos') :
    (preFilter mf opf qsos).Perm (preFilter mf opf qsos') := by
  unfold preFilter
  by_cases hm : mf = "all" <;> by_cases ho : opf = "all" <;>
    simp [hm, ho] <;> first
      | exact h
      | exact h.filter _
      | exact (h.filter _).filter _

/-- **C8.** Folding a record list and any permutation of it through
`analyzeQSOs` assigns the identical final status to every entity identifier
and every band: the per-band statuses of the fold are order-independent. -/
theorem C8_band_status_perm_invariant (lk : String → Option DXCCInfo)
    (qsos qsos' : List QSO) (mf opf : String) (hperm : qsos.Perm qsos')
    (id b : String) :
    statusOf (analyzeQSOs lk qsos mf opf) id b =
      statusOf (analyzeQSOs lk qsos' mf opf) id b := by
  rw [statusOf_analyzeQSOs, statusOf_analyzeQSOs]
  have hp : ((preFilter mf opf qsos).filter (relevantTo id b)).Perm
      ((preFilter mf opf qsos').filter (relevantTo id b)) :=
    (preFilter_perm mf opf hperm).filter _
  rw [perm_any_eq hp, perm_isEmpty_eq hp]

/-- Witness for C8: swapping two records (one confirmed, one not) leaves
the resulting 20m status of entity 291 unchanged. -/
theorem C8_band_status_perm_invariant_witness :
    statusOf (analyzeQSOs (fun _ => Option.none)
        [[("DXCC", "291"), ("BAND", "20m"), ("LOTW_QSL_RCVD", "Y")],
         [("DXCC", "291"), ("BAND", "20m")]] "all" "all") "291" "20m" =
      statusOf (analyzeQSOs (fun _ => Option.none)
        [[("DXCC", "291"), ("BAND", "20m")],
         [("DXCC", "291"), ("BAND", "20m"), ("LOTW_QSL_RCVD", "Y")]]
        "all" "all") "291" "20m" :=
  C8_band_status_perm_invariant (fun _ => Option.none) _ _ "all" "all"
    (List.Perm.swap _ _ _) "291" "20m"

theorem totalSum_append (d : DXCCData) (x : String × DXCCEntry) :
    totalSum (d ++ [x]) = totalSum d + x.2.total := by
  simp [totalSum]

theorem totalSum_updateEntry (d : DXCCData) (id : String)
    (f : DXCCEntry → DXCCEntry) (hf : ∀ e, (f e).total = e.total + 1)
    (hex : (lookupEntry d id).isSome = true) :
    totalSum (updateEntry d id f) = totalSum d + 1 := by
  induction d with
  | nil => simp [lookupEntry] at hex
  | cons p rest ih =>
    obtain ⟨k, e⟩ := p
    by_cases hk : k = id
    · simp [updateEntry, hk, totalSum, hf e]
      omega
    · simp only [lookupEntry, hk, if_false] at hex
      simp [updateEntry, hk, totalSum] at ih ⊢
      rw [ih hex]
      omega

theorem totalSum_analyzeStep (lk : String → Option DXCCInfo) (d : DXCCData)
    (q : QSO) :
    totalSum (analyzeStep lk d q) =
      totalSum d + (if (qsoKey q).isSome then 1 else 0) := by
  unfold analyzeStep
  cases hk : qsoKey q with
  | none => simp
  | some id =>
    simp only [Option.isSome_some, if_true]
    by_cases hex : (lookupEntry d id).isSome = true
    · simp only [hex, if_true]
      exact totalSum_updateEntry d id _ (fun e => applyQso_total e q) hex
    · simp only [hex, Bool.false_eq_true, if_false]
      have hnone : lookupEntry d id = Option.none := by
        cases h : lookupEntry d id
        · rfl
        · rw [h] at hex; simp at hex
      have hex2 : (lookupEntry (d ++ [(id,
          initEntry (resolveCountry lk q id) (resolveCont lk q id)
            (resolveDeleted lk id))]) id).isSome = true := by
        rw [lookupEntry_append, hnone]
        simp [lookupEntry]
      rw [totalSum_updateEntry _ id _ (fun e => applyQso_total e q) hex2,
        totalSum_append]
      simp [initEntry]

theorem totalSum_foldl (lk : String → Option DXCCInfo) (l : List QSO)
    (d : DXCCData) :
    totalSum (l.foldl (analyzeStep lk) d) =
      totalSum d + l.countP (fun q => (qsoKey q).isSome) := by
  induction l generalizing d with
  | nil => simp
  | cons q t ih =>
    rw [List.foldl_cons, ih, totalSum_analyzeStep, List.countP_cons]
    by_cases hk : (qsoKey q).isSome = true <;> simp [hk] <;> omega

/-- **C4.** With no pre-aggregation filters active, the sum of the `total`
field over all aggregates produced by `analyzeQSOs` equals the number of
input records whose `DXCC` grouping key is present and non-empty. -/
theorem C4_total_contacts_conservation (lk : String → Option DXCCInfo)
    (qsos : List QSO) :
    totalSum (analyzeQSOs lk qsos "all" "all") =
      qsos.countP (fun q =>
        decide (getField q "DXCC" ≠ Option.none ∧
                getField q "DXCC" ≠ some "")) := by
  unfold analyzeQSOs preFilter
  rw [if_pos rfl, if_pos rfl, totalSum_foldl]
  have hpt : (fun q => (qsoKey q).isSome) = (fun q : QSO =>
      decide (getField q "DXCC" ≠ Option.none ∧
              getField q "DXCC" ≠ some "")) := by
    funext q
    unfold qsoKey
    cases h : getField q "DXCC" with
    | none => simp
    | some s =>
      by_cases hs : s = "" <;> simp [hs]
  rw [← hpt]
  simp [totalSum]

theorem getField_append_single_ne (q : QSO) (n v f : String) (h : ¬n = f) :
    getField (q ++ [(n, v)]) f = getField q f := by
  induction q with
  | nil => simp [getField, h]
  | cons p rest ih =>
    obtain ⟨a, b⟩ := p
    simp only [List.cons_append, getField, List.append_eq, ih]

/-- **C5.** `isConfirmed` holds exactly when one of the six designated
confirmation fields carries `Y` or `V` case-insensitively, and assigning
any value to `QRZCOM_QSO_UPLOAD_STATUS` never changes the verdict. -/
theorem C5_isConfirmed_designated_fields (q : QSO) :
    (isConfirmed q = true ↔
      ∃ f ∈ confirmFields, ∃ v, getField q f = some v ∧
        (upStr v = "Y" ∨ upStr v = "V")) ∧
    (∀ v, isConfirmed (q ++ [("QRZCOM_QSO_UPLOAD_STATUS", v)]) = isConfirmed q) := by
  constructor
  · unfold isConfirmed
    rw [List.any_eq_true]
    constructor
    · rintro ⟨f, hf, hYV⟩
      refine ⟨f, hf, ?_⟩
      unfold isYV at hYV
      cases h : getField q f with
      | none => rw [h] at hYV; simp at hYV
      | some v =>
        rw [h] at hYV
        simp only [Bool.or_eq_true, decide_eq_true_eq] at hYV
        exact ⟨v, rfl, hYV⟩
    · rintro ⟨f, hf, v, hv, hYV⟩
      refine ⟨f, hf, ?_⟩
      unfold isYV
      rw [hv]
      simp only [Bool.or_eq_true, decide_eq_true_eq]
      exact hYV
  · intro v
    unfold isConfirmed confirmFields
    simp only [List.any_cons, List.any_nil]
    rw [getField_append_single_ne q _ v "LOTW_QSL_RCVD" (by decide),
      getField_append_single_ne q _ v "EQSL_QSL_RCVD" (by decide),
      getField_append_single_ne q _ v "QSL_RCVD" (by decide),
      getField_append_single_ne q _ v "QRZCOM_QSL_RCVD" (by decide),
      getField_append_single_ne q _ v "QRZ_QSL_RCVD" (by decide),
      getField_append_single_ne q _ v "QRZCOM_QSO_DOWNLOAD_STATUS" (by decide)]

theorem mem_parseADIF_foldl (l : List String) (acc : List QSO) (r : QSO)
    (h : r ∈ l.foldl
      (fun acc rec =>
        if trimStr rec = "" then acc
        else
          let qso := buildQSO rec
          if qso.length > 0 then acc ++ [qso] else acc) acc) :
    r ∈ acc ∨ ∃ chunk ∈ l, r = buildQSO chunk ∧ (buildQSO chunk).length > 0 := by
  induction l generalizing acc with
  | nil => exact Or.inl h
  | cons c t ih =>
    rw [List.foldl_cons] at h
    rcases ih _ h with hacc | ⟨chunk, hchunk, hr⟩
    · by_cases h1 : trimStr c = ""
      · rw [if_pos h1] at hacc
        exact Or.inl hacc
      · rw [if_neg h1] at hacc
        by_cases h2 : (buildQSO c).length > 0
        · simp only [h2, if_true, List.mem_append, List.mem_singleton] at hacc
          rcases hacc with h3 | h3
          · exact Or.inl h3
          · exact Or.inr ⟨c, List.mem_cons_self c t, h3, h3 ▸ h2⟩
        · simp only [h2, if_false] at hacc
          exact Or.inl hacc
    · exact Or.inr ⟨chunk, List.mem_cons_of_mem c hchunk, hr⟩

/-- **C9.** A chunk yielding zero parsed fields produces no record in
`parseADIF`'s output (every emitted record is non-empty), and a record
whose grouping key is absent or empty leaves the aggregate map completely
unchanged: no entry created, no total incremented, no band or platform
field altered. -/
theorem C9_empty_and_keyless_records_dropped (content : String) :
    (∀ r ∈ parseADIF content, r ≠ []) ∧
    (∀ (lk : String → Option DXCCInfo) (d : DXCCData) (q : QSO),
      (getField q "DXCC" = Option.none ∨ getField q "DXCC" = some "") →
      analyzeStep lk d q = d) := by
  constructor
  · intro r hr
    unfold parseADIF at hr
    rcases mem_parseADIF_foldl _ _ _ hr with habs | ⟨chunk, _, hre, hlen⟩
    · simp at habs
    · rw [hre]
      intro hnil
      rw [hnil] at hlen
      simp at hlen
  · intro lk d q hkey
    unfold analyzeStep qsoKey
    rcases hkey with h | h <;> rw [h] <;> simp

/-- Witness for C9: a record parsed from a real chunk is non-empty, and a
keyless record leaves an empty aggregate map empty. -/
theorem C9_empty_and_keyless_records_dropped_witness :
    ([("DXCC", "291")] : QSO) ≠ [] ∧
    analyzeStep (fun _ => Option.none) [] [("BAND", "20m")] = [] :=
  ⟨(C9_empty_and_keyless_records_dropped "<DXCC:3>291<eor>").1
      [("DXCC", "291")] (by decide),
    (C9_empty_and_keyless_records_dropped "<DXCC:3>291<eor>").2
      (fun _ => Option.none) [] [("BAND", "20m")] (Or.inl (by decide))⟩


theorem initEntry_inv (country cont : String) (deleted : Bool) :
    EntryInv (initEntry country cont deleted) := by
  intro b
  simp [initEntry]

theorem applyQso_inv (e : DXCCEntry) (q : QSO) (h : EntryInv e) :
    EntryInv (applyQso e q) := by
  intro b
  rw [applyQso_bands, applyQso_bandQsos]
  by_cases hbk : bandKey q = some b
  · rw [if_pos hbk, if_pos hbk]
    have hne : ¬bandTransition (e.bands b) q = BandStatus.N := by
      unfold bandTransition
      cases hc : isConfirmed q
      · by_cases hN : e.bands b = BandStatus.N <;> simp [hN]
      · simp
    exact ⟨⟨fun habs => absurd habs hne, fun habs => absurd habs (by omega)⟩,
      fun p _ => hne⟩
  · rw [if_neg hbk, if_neg hbk]
    refine ⟨by simpa using (h b).1, fun p hc => ?_⟩
    rw [applyQso_bandConfirmations, decide_eq_false hbk] at hc
    simp only [Bool.false_and, Bool.or_false] at hc
    exact (h b).2 p hc

theorem analyzeStep_entry_inv (lk : String → Option DXCCInfo) (d : DXCCData)
    (q : QSO) (hd : ∀ id e, lookupEntry d id = some e → EntryInv e) :
    ∀ id e, lookupEntry (analyzeStep lk d q) id = some e → EntryInv e := by
  intro id e he
  cases hk : qsoKey q with
  | none =>
    unfold analyzeStep at he
    rw [hk] at he
    exact hd id e he
  | some id' =>
    have hstep : analyzeStep lk d q =
        updateEntry
          (if (lookupEntry d id').isSome then d
           else d ++ [(id', initEntry (resolveCountry lk q id')
             (resolveCont lk q id') (resolveDeleted lk id'))])
          id' (fun e => applyQso e q) := by
      unfold analyzeStep
      rw [hk]
    rw [hstep] at he
    by_cases hex : (lookupEntry d id').isSome = true
    · rw [if_pos hex, lookupEntry_updateEntry] at he
      by_cases hid : id = id'
      · rw [if_pos hid] at he
        cases hl : lookupEntry d id' with
        | none => rw [hl] at he; simp at he
        | some e0 =>
          rw [hl] at he
          simp only [Option.map_some'] at he
          obtain rfl : applyQso e0 q = e := Option.some.inj he
          exact applyQso_inv e0 q (hd id' e0 hl)
      · rw [if_neg hid] at he
        exact hd id e he
    · rw [if_neg hex, lookupEntry_updateEntry] at he
      by_cases hid : id = id'
      · rw [if_pos hid, lookupEntry_append] at he
        have hnone : lookupEntry d id' = Option.none := by
          cases h : lookupEntry d id'
          · rfl
          · rw [h] at hex; simp at hex
        rw [hnone] at he
        simp only [lookupEntry, if_pos rfl, Option.map_some'] at he
        obtain rfl := Option.some.inj he
        exact applyQso_inv _ q (initEntry_inv _ _ _)
      · rw [if_neg hid, lookupEntry_append] at he
        cases hl : lookupEntry d id with
        | some e0 =>
          rw [hl] at he
          obtain rfl := Option.some.inj he
          exact hd id e0 hl
        | none =>
          rw [hl] at he
          have : ¬id' = id := fun h => hid h.symm
          simp [lookupEntry, this] at he

theorem analyzeQSOs_entry_inv (lk : String → Option DXCCInfo)
    (qsos : List QSO) (mf opf id : String) (e : DXCCEntry)
    (h : lookupEntry (analyzeQSOs lk qsos mf opf) id = some e) : EntryInv e := by
  suffices hgen : ∀ (l : List QSO) (d : DXCCData),
      (∀ id e, lookupEntry d id = some e → EntryInv e) →
      ∀ id e, lookupEntry (l.foldl (analyzeStep lk) d) id = some e → EntryInv e by
    exact hgen (preFilter mf opf qsos) [] (fun _ _ h0 => by simp [lookupEntry] at h0)
      id e h
  intro l
  induction l with
  | nil => intro d hd; exact hd
  | cons q t ih =>
    intro d hd
    rw [List.foldl_cons]
    exact ih _ (analyzeStep_entry_inv lk d q hd)

/-- **C7.** For an aggregate produced by `analyzeQSOs` and a recognized
band, under an active platform filter `getDisplayBandStatus` returns `'C'`
exactly when that platform has a confirmation recorded on that band,
otherwise `'W'` exactly when at least one contact exists on that band,
otherwise `null`; in particular it never returns `'W'` for a band whose
per-band contact count is zero. -/
theorem C7_display_band_status_platform_filter
    (lk : String → Option DXCCInfo) (qsos : List QSO) (mf opf id : String)
    (e : DXCCEntry) (h : lookupEntry (analyzeQSOs lk qsos mf opf) id = some e)
    (b : String) (hb : b ∈ BANDS) (p : Platform) :
    (getDisplayBandStatus (some p) e b = BandStatus.C ↔
      e.bandConfirmations b p = true) ∧
    (getDisplayBandStatus (some p) e b = BandStatus.W ↔
      (e.bandConfirmations b p = false ∧ 0 < e.bandQsos b)) ∧
    (e.bandQsos b = 0 → getDisplayBandStatus (some p) e b = BandStatus.N) := by
  have hinv := analyzeQSOs_entry_inv lk qsos mf opf id e h b
  unfold getDisplayBandStatus
  by_cases hN : e.bands b = BandStatus.N
  · have hq0 : e.bandQsos b = 0 := (hinv.1).mp hN
    have hcf : e.bandConfirmations b p = false := by
      cases hc : e.bandConfirmations b p
      · rfl
      · exact absurd hN (hinv.2 p hc)
    simp [hN, hq0, hcf]
  · have hqpos : 0 < e.bandQsos b := by
      rcases Nat.eq_zero_or_pos (e.bandQsos b) with h0 | hpos
      · exact absurd ((hinv.1).mpr h0) hN
      · exact hpos
    cases hc : e.bandConfirmations b p <;> simp [hN, hc, hqpos] <;> omega


/-- Witness for C7 on a concrete log: the 20m display status under the
LOTW platform filter is `'C'` exactly because LOTW confirmed on 20m. -/
theorem C7_display_band_status_platform_filter_witness :
    lookupEntry (analyzeQSOs (fun _ => Option.none)
        [[("DXCC", "291"), ("BAND", "20m"), ("LOTW_QSL_RCVD", "Y")]]
        "all" "all") "291" = some c7entry ∧
    "20m" ∈ BANDS ∧
    (getDisplayBandStatus (some Platform.lotw) c7entry "20m" = BandStatus.C ↔
      c7entry.bandConfirmations "20m" Platform.lotw = true) :=
  ⟨rfl, by decide,
    (C7_display_band_status_platform_filter (fun _ => Option.none)
      [[("DXCC", "291"), ("BAND", "20m"), ("LOTW_QSL_RCVD", "Y")]]
      "all" "all" "291" c7entry rfl "20m" (by decide) Platform.lotw).1⟩

theorem lookupEntry_eq_none_of_isSome_false (d : DXCCData) (id : String)
    (h : ¬(lookupEntry d id).isSome = true) : lookupEntry d id = Option.none := by
  cases hl : lookupEntry d id
  · rfl
  · rw [hl] at h; simp at h

theorem analyzeStep_preserves_resolved (lk : String → Option DXCCInfo)
    (d : DXCCData) (q : QSO) (id : String) (e : DXCCEntry)
    (h : lookupEntry d id = some e) :
    ∃ e', lookupEntry (analyzeStep lk d q) id = some e' ∧
      e'.country = e.country ∧ e'.cont = e.cont ∧ e'.deleted = e.deleted := by
  cases hk : qsoKey q with
  | none =>
    refine ⟨e, ?_, rfl, rfl, rfl⟩
    unfold analyzeStep
    rw [hk]
    exact h
  | some id' =>
    have hstep : analyzeStep lk d q =
        updateEntry
          (if (lookupEntry d id').isSome then d
           else d ++ [(id', initEntry (resolveCountry lk q id')
             (resolveCont lk q id') (resolveDeleted lk id'))])
          id' (fun e => applyQso e q) := by
      unfold analyzeStep
      rw [hk]
    rw [hstep]
    by_cases hex : (lookupEntry d id').isSome = true
    · rw [if_pos hex, lookupEntry_updateEntry]
      by_cases hid : id = id'
      · subst hid
        rw [if_pos rfl, h]
        exact ⟨applyQso e q, rfl, applyQso_country e q, applyQso_cont e q,
          applyQso_deleted e q⟩
      · rw [if_neg hid, h]
        exact ⟨e, rfl, rfl, rfl, rfl⟩
    · have hnone := lookupEntry_eq_none_of_isSome_false d id' hex
      have hid : ¬id = id' := by
        intro hcontra
        rw [hcontra, hnone] at h
        exact Option.noConfusion h
      rw [if_neg hex, lookupEntry_updateEntry, if_neg hid, lookupEntry_append, h]
      exact ⟨e, rfl, rfl, rfl, rfl⟩

theorem foldl_preserves_resolved (lk : String → Option DXCCInfo)
    (l : List QSO) (d : DXCCData) (id : String) (e : DXCCEntry)
    (h : lookupEntry d id = some e) :
    ∃ e', lookupEntry (l.foldl (analyzeStep lk) d) id = some e' ∧
      e'.country = e.country ∧ e'.cont = e.cont ∧ e'.deleted = e.deleted := by
  induction l generalizing d e with
  | nil => exact ⟨e, h, rfl, rfl, rfl⟩
  | cons q t ih =>
    rw [List.foldl_cons]
    obtain ⟨e1, he1, hc1, hk1, hd1⟩ := analyzeStep_preserves_resolved lk d q id e h
    obtain ⟨e2, he2, hc2, hk2, hd2⟩ := ih _ e1 he1
    exact ⟨e2, he2, hc2.trans hc1, hk2.trans hk1, hd2.trans hd1⟩

theorem lookupEntry_analyzeStep_other (lk : String → Option DXCCInfo)
    (d : DXCCData) (q : QSO) (id : String) (h : ¬qsoKey q = some id) :
    lookupEntry (analyzeStep lk d q) id = lookupEntry d id := by
  cases hk : qsoKey q with
  | none =>
    unfold analyzeStep
    rw [hk]
  | some id' =>
    have hid : ¬id = id' := by
      intro hcontra
      rw [hk, hcontra] at h
      exact h rfl
    have hstep : analyzeStep lk d q =
        updateEntry
          (if (lookupEntry d id').isSome then d
           else d ++ [(id', initEntry (resolveCountry lk q id')
             (resolveCont lk q id') (resolveDeleted lk id'))])
          id' (fun e => applyQso e q) := by
      unfold analyzeStep
      rw [hk]
    rw [hstep]
    by_cases hex : (lookupEntry d id').isSome = true
    · rw [if_pos hex, lookupEntry_updateEntry, if_neg hid]
    · rw [if_neg hex, lookupEntry_updateEntry, if_neg hid, lookupEntry_append]
      cases hl : lookupEntry d id
      · have hid' : ¬id' = id := fun hcontra => hid hcontra.symm
        simp [lookupEntry, hid']
      · simp

theorem lookup_foldl_first_record (lk : String → Option DXCCInfo)
    (l : List QSO) (d : DXCCData) (id : String)
    (h : lookupEntry d id = Option.none) :
    (lookupEntry (l.foldl (analyzeStep lk) d) id).map
        (fun e => (e.country, e.cont, e.deleted)) =
      (l.find? (fun q => qsoKey q == some id)).map
        (fun q => (resolveCountry lk q id, resolveCont lk q id,
          resolveDeleted lk id)) := by
  induction l generalizing d with
  | nil => simp [h]
  | cons q t ih =>
    rw [List.foldl_cons, List.find?_cons]
    by_cases hq : qsoKey q = some id
    · have hbeq : (qsoKey q == some id) = true := by
        rw [hq]; simp
      rw [hbeq]
      have hstep : analyzeStep lk d q =
          updateEntry
            (d ++ [(id, initEntry (resolveCountry lk q id)
              (resolveCont lk q id) (resolveDeleted lk id))])
            id (fun e => applyQso e q) := by
        unfold analyzeStep
        simp [hq, h]
      have hentry : lookupEntry (analyzeStep lk d q) id =
          some (applyQso (initEntry (resolveCountry lk q id)
            (resolveCont lk q id) (resolveDeleted lk id)) q) := by
        rw [hstep, lookupEntry_updateEntry]
        simp [lookupEntry_append, h, lookupEntry]
      obtain ⟨e2, he2, hc2, hk2, hd2⟩ :=
        foldl_preserves_resolved lk t (analyzeStep lk d q) id _ hentry
      rw [he2]
      simp only [Option.map_some']
      rw [hc2, hk2, hd2, applyQso_country, applyQso_cont, applyQso_deleted]
      simp [initEntry]
    · have hbeq : (qsoKey q == some id) = false := by
        cases hqk : qsoKey q with
        | none => rfl
        | some v =>
          rw [hqk] at hq
          simpa using hq
      rw [hbeq]
      simp only [Bool.false_eq_true, if_false]
      rw [← ih (analyzeStep lk d q)
        (by rw [lookupEntry_analyzeStep_other lk d q id hq]; exact h)]

/-- **C10.** An aggregate's `country`, `cont` and `deleted` fields are fixed
by the first folded record bearing its entity identifier: every later fold
step preserves them, and the final values are the ones resolved from the
first matching record of the (pre-filtered) input. -/
theorem C10_first_record_fixes_resolution (lk : String → Option DXCCInfo)
    (qsos : List QSO) (mf opf id : String) :
    (∀ (d : DXCCData) (q : QSO) (e : DXCCEntry), lookupEntry d id = some e →
      ∃ e', lookupEntry (analyzeStep lk d q) id = some e' ∧
        e'.country = e.country ∧ e'.cont = e.cont ∧ e'.deleted = e.deleted) ∧
    (lookupEntry (analyzeQSOs lk qsos mf opf) id).map
        (fun e => (e.country, e.cont, e.deleted)) =
      ((preFilter mf opf qsos).find? (fun q => qsoKey q == some id)).map
        (fun q => (resolveCountry lk q id, resolveCont lk q id,
          resolveDeleted lk id)) :=
  ⟨fun d q e h => analyzeStep_preserves_resolved lk d q id e h,
    lookup_foldl_first_record lk (preFilter mf opf qsos) [] id rfl⟩

/-- Witness for C10: a second record with different `COUNTRY`/`CONT` values
leaves the stored resolution of entity 230 untouched. -/
theorem C10_first_record_fixes_resolution_witness :
    lookupEntry [("230", initEntry "Germany" "EU" false)] "230" =
      some (initEntry "Germany" "EU" false) ∧
    ∃ e', lookupEntry (analyzeStep (fun _ => Option.none)
        [("230", initEntry "Germany" "EU" false)]
        [("DXCC", "230"), ("COUNTRY", "Allemagne"), ("CONT", "AS")]) "230" =
          some e' ∧
      e'.country = (initEntry "Germany" "EU" false).country ∧
      e'.cont = (initEntry "Germany" "EU" false).cont ∧
      e'.deleted = (initEntry "Germany" "EU" false).deleted :=
  ⟨rfl,
    (C10_first_record_fixes_resolution (fun _ => Option.none) [] "all" "all"
      "230").1 [("230", initEntry "Germany" "EU" false)]
      [("DXCC", "230"), ("COUNTRY", "Allemagne"), ("CONT", "AS")]
      (initEntry "Germany" "EU" false) rfl⟩

/-!
## Continent resolution priority

The source resolves an aggregate's continent as
`qso.CONT || dxccLookup?.cont || ''` (with the inline comment "ADIF fields
first, then DXCC lookup table fallback"): the record's `CONT` field takes
priority and the lookup table is only a fallback.
-/


/-- Counterexample to C2 as stated: entity 230 has a lookup-table entry
with continent `"EU"`, the record carries `CONT = "AS"`, and the resulting
aggregate stores the record's value `"AS"`, not the lookup value. -/
theorem C2_counterexample_record_cont_wins :
    (sampleLookup "230").map (fun i => i.cont) = some "EU" ∧
    (lookupEntry (analyzeQSOs sampleLookup [[("DXCC", "230"), ("CONT", "AS")]]
        "all" "all") "230").map (fun e => e.cont) = some "AS" ∧
    ("AS" : String) ≠ "EU" :=
  ⟨rfl, rfl, by decide⟩

/-- **C2 (amended).** For every record folded by `analyzeQSOs` whose entity
identifier has a lookup-table entry and which carries a non-empty `CONT`
field, the aggregate initialized from it stores the record's `CONT` value:
the record's field takes priority and the lookup table is only a fallback
used when the field is absent or empty. -/
theorem C2_record_cont_priority (lk : String → Option DXCCInfo)
    (d : DXCCData) (q : QSO) (id c : String)
    (hlk : (lk id).isSome = true) (hkey : qsoKey q = some id)
    (hnew : lookupEntry d id = Option.none)
    (hc : getField q "CONT" = some c) (hne : c ≠ "") :
    (lookupEntry (analyzeStep lk d q) id).map (fun e => e.cont) = some c := by
  have hstep : analyzeStep lk d q =
      updateEntry
        (d ++ [(id, initEntry (resolveCountry lk q id)
          (resolveCont lk q id) (resolveDeleted lk id))])
        id (fun e => applyQso e q) := by
    unfold analyzeStep
    simp [hkey, hnew]
  rw [hstep, lookupEntry_updateEntry]
  simp [lookupEntry_append, hnew, lookupEntry, applyQso_cont, initEntry,
    resolveCont, hc, jsOr, hne]

/-- Witness for the amended C2 at a concrete input. -/
theorem C2_record_cont_priority_witness :
    (lookupEntry (analyzeStep sampleLookup []
        [("DXCC", "230"), ("CONT", "AS")]) "230").map (fun e => e.cont) =
      some "AS" :=
  C2_record_cont_priority sampleLookup [] [("DXCC", "230"), ("CONT", "AS")]
    "230" "AS" (by decide) (by decide) rfl (by decide) (by decide)

/-!
## MissingEntityResolver and the "Not Worked" status mode

The analyzed component's status filter implements only the `all`,
`confirmed` and `worked` modes; the repository's README documents the
additional "Not Worked" view.  The definitions below model that missing
part from the spec.
-/

theorem keys_updateEntry (d : DXCCData) (id : String)
    (f : DXCCEntry → DXCCEntry) :
    (updateEntry d id f).map Prod.fst = d.map Prod.fst := by
  induction d with
  | nil => rfl
  | cons p rest ih =>
    obtain ⟨k, e⟩ := p
    by_cases hk : k = id <;> simp [updateEntry, hk, ih]

theorem lookupEntry_eq_none_iff (d : DXCCData) (id : String) :
    lookupEntry d id = Option.none ↔ id ∉ d.map Prod.fst := by
  induction d with
  | nil => simp [lookupEntry]
  | cons p rest ih =>
    obtain ⟨k, e⟩ := p
    by_cases hk : k = id
    · subst hk
      simp [lookupEntry]
    · have hk' : ¬id = k := fun h => hk h.symm
      simp [lookupEntry, hk, hk', ih]

theorem analyzeStep_keys_nodup (lk : String → Option DXCCInfo) (d : DXCCData)
    (q : QSO) (h : (d.map Prod.fst).Nodup) :
    ((analyzeStep lk d q).map Prod.fst).Nodup := by
  cases hk : qsoKey q with
  | none =>
    unfold analyzeStep
    rw [hk]
    exact h
  | some id =>
    have hstep : analyzeStep lk d q =
        updateEntry
          (if (lookupEntry d id).isSome then d
           else d ++ [(id, initEntry (resolveCountry lk q id)
             (resolveCont lk q id) (resolveDeleted lk id))])
          id (fun e => applyQso e q) := by
      unfold analyzeStep
      rw [hk]
    rw [hstep, keys_updateEntry]
    by_cases hex : (lookupEntry d id).isSome = true
    · rw [if_pos hex]
      exact h
    · rw [if_neg hex, List.map_append]
      have hnone := lookupEntry_eq_none_of_isSome_false d id hex
      have hnotin := (lookupEntry_eq_none_iff d id).mp hnone
      simp only [List.map_cons, List.map_nil]
      rw [List.nodup_append]
      exact ⟨h, List.nodup_singleton id, by simpa using hnotin⟩

theorem analyzeQSOs_keys_nodup (lk : String → Option DXCCInfo)
    (qsos : List QSO) (mf opf : String) :
    ((analyzeQSOs lk qsos mf opf).map Prod.fst).Nodup := by
  unfold analyzeQSOs
  suffices hgen : ∀ (l : List QSO) (d : DXCCData), (d.map Prod.fst).Nodup →
      ((l.foldl (analyzeStep lk) d).map Prod.fst).Nodup by
    exact hgen _ [] (by simp)
  intro l
  induction l with
  | nil => exact fun d hd => hd
  | cons q t ih =>
    intro d hd
    rw [List.foldl_cons]
    exact ih _ (analyzeStep_keys_nodup lk d q hd)

theorem mem_of_lookupEntry_some (d : DXCCData) (id : String) (e : DXCCEntry)
    (h : lookupEntry d id = some e) : (id, e) ∈ d := by
  induction d with
  | nil => simp [lookupEntry] at h
  | cons p rest ih =>
    obtain ⟨k, e'⟩ := p
    by_cases hk : k = id
    · subst hk
      simp only [lookupEntry, if_pos rfl] at h
      obtain rfl := Option.some.inj h
      exact List.mem_cons_self _ _
    · simp only [lookupEntry, hk, if_false] at h
      exact List.mem_cons_of_mem _ (ih h)

theorem lookupEntry_of_mem_nodup (d : DXCCData) (id : String) (e : DXCCEntry)
    (hmem : (id, e) ∈ d) (hnd : (d.map Prod.fst).Nodup) :
    lookupEntry d id = some e := by
  induction d with
  | nil => simp at hmem
  | cons p rest ih =>
    obtain ⟨k, e'⟩ := p
    rw [List.map_cons, List.nodup_cons] at hnd
    rcases List.mem_cons.mp hmem with heq | htail
    · obtain ⟨rfl, rfl⟩ := Prod.mk.injEq .. ▸ heq
      injection heq with h1 h2
      simp [lookupEntry]
    · have hid : ¬k = id := by
        intro hcontra
        subst hcontra
        exact hnd.1 (List.mem_map.mpr ⟨(k, e), htail, rfl⟩)
      simp only [lookupEntry, hid, if_false]
      exact ih htail hnd.2



/-- **C3 (spec-modelled).** The "Not Worked" mode yields exactly the
non-retired lookup-table entities absent from the aggregate set, plus —
when a band filter is active — the aggregated entities whose status on
that band is None; in particular, with band filter `40m` and records
giving entity 291 contacts only on `20m`, entity 291 is included. -/
theorem C3_not_worked_mode (table : List LookupRow)
    (lk : String → Option DXCCInfo) (qsos : List QSO) (mf opf b id : String) :
    (id ∈ notWorkedEntities table (analyzeQSOs lk qsos mf opf) Option.none ↔
      ∃ r ∈ table, r.id = id ∧ r.deleted = false ∧
        lookupEntry (analyzeQSOs lk qsos mf opf) id = Option.none) ∧
    (id ∈ notWorkedEntities table (analyzeQSOs lk qsos mf opf) (some b) ↔
      ((∃ r ∈ table, r.id = id ∧ r.deleted = false ∧
          lookupEntry (analyzeQSOs lk qsos mf opf) id = Option.none) ∨
        ∃ e, lookupEntry (analyzeQSOs lk qsos mf opf) id = some e ∧
          e.bands b = BandStatus.N)) ∧
    "291" ∈ notWorkedEntities
      [⟨"291", "United States of America", "NA", false⟩]
      (analyzeQSOs sampleLookup [[("DXCC", "291"), ("BAND", "20m")]]
        "all" "all") (some "40m") := by
  have hmissing : ∀ dd : DXCCData,
      (id ∈ (table.filter
        (fun r => !r.deleted && (lookupEntry dd r.id).isNone)).map LookupRow.id ↔
      ∃ r ∈ table, r.id = id ∧ r.deleted = false ∧
        lookupEntry dd id = Option.none) := by
    intro dd
    rw [List.mem_map]
    constructor
    · rintro ⟨r, hr, hid⟩
      rw [List.mem_filter] at hr
      obtain ⟨hrt, hcond⟩ := hr
      simp only [Bool.and_eq_true, Bool.not_eq_true', Option.isNone_iff_eq_none]
        at hcond
      exact ⟨r, hrt, hid, hcond.1, hid ▸ hcond.2⟩
    · rintro ⟨r, hrt, hid, hdel, hnone⟩
      refine ⟨r, List.mem_filter.mpr ⟨hrt, ?_⟩, hid⟩
      simp only [Bool.and_eq_true, Bool.not_eq_true', Option.isNone_iff_eq_none]
      exact ⟨hdel, hid ▸ hnone⟩
  have hnd := analyzeQSOs_keys_nodup lk qsos mf opf
  refine ⟨by simpa [notWorkedEntities] using hmissing _, ?_, by decide⟩
  unfold notWorkedEntities
  simp only [List.mem_append]
  rw [hmissing _]
  constructor
  · rintro (hmiss | hband)
    · exact Or.inl hmiss
    · rw [List.mem_map] at hband
      obtain ⟨⟨k, e⟩, hmem, hfst⟩ := hband
      rw [List.mem_filter] at hmem
      obtain ⟨hmem, hN⟩ := hmem
      simp only at hfst
      subst hfst
      exact Or.inr ⟨e, lookupEntry_of_mem_nodup _ _ _ hmem hnd,
        of_decide_eq_true hN⟩
  · rintro (hmiss | ⟨e, hle, hN⟩)
    · exact Or.inl hmiss
    · refine Or.inr (List.mem_map.mpr ⟨(id, e), List.mem_filter.mpr
        ⟨mem_of_lookupEntry_some _ _ _ hle, decide_eq_true hN⟩, rfl⟩)

/-!
## Field-value truncation and trimming

The source truncates a captured VALUE to the declared LENGTH only when the
length is positive (`declaredLength > 0 && rawValue.length > declaredLength`),
then trims; with a declared length of zero the guard is false and the raw
capture is stored untruncated.
-/

/-- Counterexample to C6 as stated: the tag `<X:0>abcd` declares LENGTH 0,
the capture `abcd` is longer than the declared length, yet the stored value
is the untruncated `abcd` — truncation is disabled when LENGTH is zero. -/
theorem C6_counterexample_zero_length_not_truncated :
    parseADIF "<X:0>abcd<eor>" = [[("X", "abcd")]] ∧
    strLen "abcd" > 0 ∧
    trimStr (takeStr "abcd" 0) ≠ "abcd" :=
  ⟨by decide, by decide, by decide⟩

/-- **C6 (amended).** Every field stored by `parseADIF` is the raw captured
text of one tag of its chunk, truncated to the tag's declared LENGTH
whenever the length is positive and the capture is longer, and trimmed of
surrounding whitespace (a declared LENGTH of zero disables truncation); in
particular `<MODE:3>FT8<BAND:3>20m<DXCC:3>291` parses with MODE exactly
`FT8`, no characters bleeding in from adjacent tags. -/
theorem C6_truncate_and_trim (content : String) :
    (∀ r ∈ parseADIF content, ∀ nv ∈ r,
      ∃ chunk ∈ splitEOR content, ∃ t ∈ extractTags chunk.data,
        nv.1 = upStr t.1 ∧ nv.2 = mkFieldValue t.2.1 t.2.2) ∧
    parseADIF "<MODE:3>FT8<BAND:3>20m<DXCC:3>291<eor>" =
      [[("MODE", "FT8"), ("BAND", "20m"), ("DXCC", "291")]] := by
  refine ⟨?_, by decide⟩
  intro r hr nv hnv
  unfold parseADIF at hr
  rcases mem_parseADIF_foldl _ _ _ hr with habs | ⟨chunk, hchunk, hre, _⟩
  · simp at habs
  · refine ⟨chunk, hchunk, ?_⟩
    rw [hre] at hnv
    unfold buildQSO at hnv
    rw [List.mem_map] at hnv
    obtain ⟨t, ht, hnvt⟩ := hnv
    exact ⟨t, ht, by rw [← hnvt], by rw [← hnvt]⟩

/-- Witness for the amended C6: the stored `MODE = FT8` binding of the
example log is produced by a captured tag via truncate-and-trim. -/
theorem C6_truncate_and_trim_witness :
    (("MODE", "FT8") ∈
      ([("MODE", "FT8"), ("BAND", "20m"), ("DXCC", "291")] : QSO)) ∧
    ∃ chunk ∈ splitEOR "<MODE:3>FT8<BAND:3>20m<DXCC:3>291<eor>",
      ∃ t ∈ extractTags chunk.data,
        ("MODE", "FT8").1 = upStr t.1 ∧
        ("MODE", "FT8").2 = mkFieldValue t.2.1 t.2.2 :=
  ⟨by decide,
    (C6_truncate_and_trim "<MODE:3>FT8<BAND:3>20m<DXCC:3>291<eor>").1
      [("MODE", "FT8"), ("BAND", "20m"), ("DXCC", "291")] (by decide)
      ("MODE", "FT8") (by decide)⟩
